import Mathlib

/-!
Verification of the composite-reflectivity retrieval
(`pyart/retrieve/comp_z.py`).

The source computes, for one radar volume, the maximum reflectivity over
all elevation sweeps on a common azimuth grid.  The embedding below mirrors
the numpy program: 2D arrays are lists of rows of exact rationals, numpy
masked arrays carry a parallel boolean mask (`true` = invalid cell), and
each Python failure mode surfaces as an explicit error value.
-/

/-- A 2D numeric grid, row-major: `data[ray][gate]`, entries as exact
rationals standing for the floating-point samples. -/
abbrev Mat : Type := List (List ℚ)

/-- A 2D boolean grid of the same layout; `true` marks an invalid (masked)
cell. -/
abbrev BMat : Type := List (List Bool)

/-- A numpy masked array: the raw data buffer plus a parallel validity mask.
A plain ndarray is represented with an all-`false` mask. -/
structure MArr2 where
  data : Mat
  mask : BMat
deriving DecidableEq, Inhabited, Repr

/-- Failure modes of the computation, modelling the Python exceptions the
source can raise: `emptyVolume` is the `UnboundLocalError` on `z_stack`
when the sweep loop never ran (volume with zero sweeps), `uninitStack` the
same error when the loop ran but no sweep number `0` initialized the stack,
`missingField` a `KeyError` from `get_field`, `indexError` an out-of-bounds
index (including `lon_0[-1,:]` on an empty grid), and `shapeMismatch` the
`ValueError` numpy raises when layers to be stacked disagree in shape, or a
condition-shape error in `masked_where`. -/
inductive Err where
  | emptyVolume
  | missingField
  | shapeMismatch
  | indexError
  | uninitStack
deriving DecidableEq, Repr

/-- Source: `def upsample(x): return np.kron(x, np.ones((2,1)))` — every row
of the input is duplicated, so input row `i` becomes output rows `2*i` and
`2*i+1`. -/
def upsample : List α → List α
  | [] => []
  | r :: rs => r :: r :: upsample rs

/-- `upsample` on a masked array acts on the data rows and the mask rows
alike (numpy's `kron` keeps the mask of a masked operand). -/
def upsampleM (z : MArr2) : MArr2 := ⟨upsample z.data, upsample z.mask⟩

/-- The resolution-normalization step of the loop:
`if lon.shape[0] < 720: z = upsample(z)`. -/
def resolutionNormalize (lonRows : Nat) (z : MArr2) : MArr2 :=
  if lonRows < 720 then upsampleM z else z

/-- Index comparison used to model `az_ids = np.argsort(az)`: index `i`
precedes `j` when `az[i] < az[j]`, ties broken by original position.  On
azimuth vectors with pairwise-distinct entries (the data model's
assumption) every correct sort returns exactly this permutation. -/
def azKey (az : List ℚ) (i j : Nat) : Prop :=
  az.getD i 0 < az.getD j 0 ∨ (az.getD i 0 = az.getD j 0 ∧ i ≤ j)

instance (az : List ℚ) : DecidableRel (azKey az) := fun i j => by
  unfold azKey; infer_instance

/-- `az_ids = np.argsort(az)`: the permutation of `0, ..., az.length - 1`
that sorts the azimuths into ascending order. -/
def argsortIdx (az : List ℚ) : List Nat :=
  (List.range az.length).insertionSort (azKey az)

/-- Fancy indexing `x[ids]` along the first axis; `d` is the out-of-range
default, never reached for the in-range index lists the pipeline builds. -/
def reorder (ids : List Nat) (l : List α) (d : α) : List α :=
  ids.map fun i => l.getD i d

/-- Whether every index is in range; numpy raises `IndexError` otherwise. -/
def validIds (ids : List Nat) (n : Nat) : Bool :=
  ids.all fun i => decide (i < n)

/-- `x[ids]` for a plain 2D array, with numpy's bounds check. -/
def reorderRowsE (ids : List Nat) (m : Mat) : Except Err Mat :=
  if validIds ids m.length then .ok (reorder ids m []) else .error .indexError

/-- `z[ids]` for a masked array: data rows and mask rows are reordered by
the same index list. -/
def reorderFieldE (ids : List Nat) (z : MArr2) : Except Err MArr2 :=
  if validIds ids z.data.length then
    .ok ⟨reorder ids z.data [], reorder ids z.mask []⟩
  else .error .indexError

/-- Elementwise `x < v` on the raw correlation data: the unmasked part of
`masked_where`'s condition. -/
def maskLt (m : Mat) (v : ℚ) : BMat :=
  m.map fun r => r.map fun x => decide (x < v)

/-- Union of two masks. -/
def maskOr (a b : BMat) : BMat :=
  List.zipWith (fun ra rb => List.zipWith (fun x y => x || y) ra rb) a b

/-- The quality filter of the loop body:
`if rhv_filter: rho_hv = radar.get_field(sweep, 'cross_correlation_ratio');
z = np.ma.masked_where(rho_hv < rhv_value, z)`.
When the flag is off the field is left untouched and the correlation field
is never consulted.  The condition `rho_hv < rhv_value` is a masked
comparison carrying `rho_hv`'s own mask, and `masked_where` passes it
through `make_mask`, which fills masked condition entries with `True`: a
cell is invalid in the result iff it was already invalid in `z`, its
correlation cell is itself invalid, or its raw correlation datum is
strictly below the threshold.  `masked_where` raises when the condition's
shape disagrees with `z`. -/
def qualityFilter (rhvFilter : Bool) (rhvValue : ℚ) (z : MArr2)
    (rho : Option MArr2) : Except Err MArr2 :=
  if rhvFilter then
    match rho with
    | none => .error .missingField
    | some rh =>
      if z.data.map List.length = rh.data.map List.length then
        .ok ⟨z.data, maskOr z.mask (maskOr rh.mask (maskLt rh.data rhvValue))⟩
      else .error .shapeMismatch
  else .ok z

/-- `a[-1,:] = a[0,:]` on a nonempty 2D array; `IndexError` on an empty
one. -/
def setLastFirstE : List α → Except Err (List α)
  | [] => .error .indexError
  | r :: rs => .ok ((r :: rs).set rs.length r)

/-- The accumulating `z_stack`.  A fresh stack `z[np.newaxis,:,:]` is a
masked array with a single layer (`ma`); `np.concatenate` (as opposed to
`np.ma.concatenate`) returns an array whose mask is dropped, so after the
first concatenation only the raw data buffers remain (`plain`). -/
inductive ZStack where
  | ma (z : MArr2)
  | plain (layers : List Mat)
deriving DecidableEq, Repr

/-- Shape `(rows, gates)` of a 2D array. -/
def matDims (m : Mat) : Nat × Nat := (m.length, (m.headD []).length)

/-- `z_stack = np.concatenate([z_stack, z[np.newaxis,:,:]])`: numpy raises a
`ValueError` when the new layer's shape disagrees with the stacked layers;
otherwise the raw data of `z` is appended and every mask is dropped. -/
def ZStack.concat : ZStack → MArr2 → Except Err ZStack
  | .ma z0, z =>
    if matDims z.data = matDims z0.data then .ok (.plain [z0.data, z.data])
    else .error .shapeMismatch
  | .plain ls, z =>
    if ls.all fun l => decide (matDims l = matDims z.data) then
      .ok (.plain (ls ++ [z.data]))
    else .error .shapeMismatch

/-- Elementwise maximum of two rows. -/
def rowMax (a b : List ℚ) : List ℚ := List.zipWith max a b

/-- Elementwise maximum of two 2D arrays. -/
def matMax2 (a b : Mat) : Mat := List.zipWith rowMax a b

/-- `compz = z_stack.max(axis=0)`.  On the mask-carrying single-layer stack
this is the masked maximum: a cell is invalid iff it is invalid in the
layer (the numpy fill value under an invalid output cell is modelled as
`0`).  On a mask-less stack it is the plain elementwise maximum of the raw
data and no output cell is invalid. -/
def ZStack.maxReduce : ZStack → MArr2
  | .ma z =>
    ⟨List.zipWith (fun dr mr => List.zipWith (fun d m => if m then 0 else d) dr mr)
        z.data z.mask,
     z.mask⟩
  | .plain [] => ⟨[], []⟩
  | .plain (l :: ls) =>
    let d := ls.foldl matMax2 l
    ⟨d, d.map fun r => r.map fun _ => false⟩

/-- The time-unit descriptor: decoding `num2date(v, units)` is the affine
map `epoch + scale * v` to an absolute timestamp (a rational number of
seconds). -/
structure TimeUnits where
  epoch : ℚ
  scale : ℚ
deriving DecidableEq, Repr

/-- `radar.time`: the volume-level array of raw ray times and its units. -/
structure TimeInfo where
  data : List ℚ
  units : TimeUnits
deriving DecidableEq, Repr

/-- Decoded absolute timestamp of one ray. -/
def decodeTime (u : TimeUnits) (v : ℚ) : ℚ := u.epoch + u.scale * v

/-- `dtime = to_datetime(num2date(radar.time['data'], radar.time['units'])
.astype(str)); dtime = dtime.mean()` — the arithmetic mean of the decoded
timestamps of all rays of the volume. -/
def timeAggregate (t : TimeInfo) : ℚ :=
  ((t.data.map (decodeTime t.units)).sum) / (t.data.length : ℚ)

/-- The radar-volume collaborator, at exactly the interface the source
reads: the sweep-number list, per-sweep ray-index ranges into the shared
volume-level arrays, per-sweep named 2D fields, gate geolocation grids, the
azimuth vector and the time array. -/
structure Radar where
  sweep_number : List Nat
  sweep_start_ray_index : List Nat
  sweep_end_ray_index : List Nat
  get_field : Nat → String → Option MArr2
  gate_longitude : Mat
  gate_latitude : Mat
  azimuth : List ℚ
  time : TimeInfo

/-- Python slice `a[s:e]` (clamping, never failing). -/
def pySlice (l : List α) (s e : Nat) : List α := (l.drop s).take (e - s)

/-- The output product: the `comp_dict` entries `longitude`, `latitude`,
`composite_reflectivity` and `time` (the constant unit and info strings of
the dictionary are omitted). -/
structure CompProduct where
  longitude : Mat
  latitude : Mat
  composite : MArr2
  time : ℚ
deriving DecidableEq, Inhabited, Repr

/-- State carried across loop iterations: the retained sweep-0 geolocation
grids and the accumulating stack, each absent until first assigned (a read
before assignment is Python's `NameError` / `UnboundLocalError`). -/
structure LoopState where
  lon0 : Option Mat
  lat0 : Option Mat
  zstack : Option ZStack
deriving Repr

/-- The state-independent part of one loop iteration: fetch the sweep's
reflectivity, apply the quality filter, slice the geolocation grids and the
azimuths by the sweep's ray range, reorder everything by ascending azimuth,
and upsample the field when the sweep has fewer than 720 rays.  Returns the
normalized field together with the reordered (un-normalized) geolocation
grids. -/
def prepSweep (radar : Radar) (rhvFilter : Bool) (rhvValue : ℚ)
    (sweep : Nat) : Except Err (MArr2 × Mat × Mat) :=
  match radar.sweep_start_ray_index.get? sweep with
  | none => .error .indexError
  | some sIdx =>
  match radar.sweep_end_ray_index.get? sweep with
  | none => .error .indexError
  | some eM1 =>
  let eIdx := eM1 + 1
  match radar.get_field sweep "reflectivity" with
  | none => .error .missingField
  | some z0 =>
  match qualityFilter rhvFilter rhvValue z0
      (radar.get_field sweep "cross_correlation_ratio") with
  | .error e => .error e
  | .ok z1 =>
  let lon := pySlice radar.gate_longitude sIdx eIdx
  let lat := pySlice radar.gate_latitude sIdx eIdx
  let az := pySlice radar.azimuth sIdx eIdx
  let ids := argsortIdx az
  match reorderFieldE ids z1 with
  | .error e => .error e
  | .ok z2 =>
  match reorderRowsE ids lon with
  | .error e => .error e
  | .ok lon2 =>
  match reorderRowsE ids lat with
  | .error e => .error e
  | .ok lat2 => .ok (resolutionNormalize lon2.length z2, lon2, lat2)

/-- One full loop iteration.  For sweep number `0` the reordered
geolocation grids are deep-copied, their last row is overwritten with the
first, and a fresh single-layer masked stack is created; for any other
sweep number the normalized field is concatenated onto the existing stack
(reading `z_stack` before sweep 0 initialized it is the `NameError`
path). -/
def processSweep (radar : Radar) (rhvFilter : Bool) (rhvValue : ℚ)
    (st : LoopState) (sweep : Nat) : Except Err LoopState :=
  match prepSweep radar rhvFilter rhvValue sweep with
  | .error e => .error e
  | .ok (z, lon2, lat2) =>
    if sweep = 0 then
      match setLastFirstE lon2, setLastFirstE lat2 with
      | .ok l0, .ok a0 => .ok ⟨some l0, some a0, some (.ma z)⟩
      | .error e, _ => .error e
      | _, .error e => .error e
    else
      match st.zstack with
      | none => .error .uninitStack
      | some zs =>
        match zs.concat z with
        | .error e => .error e
        | .ok zs2 => .ok ⟨st.lon0, st.lat0, some zs2⟩

set_option linter.unusedVariables false in
/-- `composite_reflectivity(radar, rhv_filter=True, rhv_value=0.95,
verbose=False)`: iterate the sweeps accumulating the stack, reduce the
stack by `max` along the sweep axis, aggregate the volume's mean time, and
assemble the output dictionary.  The `verbose` flag only controls printing
in the source and has no effect on the result. -/
def composite_reflectivity (radar : Radar) (rhv_filter : Bool)
    (rhv_value : ℚ) (verbose : Bool) : Except Err CompProduct :=
  match radar.sweep_number.foldlM (processSweep radar rhv_filter rhv_value)
      ⟨none, none, none⟩ with
  | .error e => .error e
  | .ok st =>
    match st.zstack with
    | none => .error .emptyVolume
    | some zs =>
      match st.lon0, st.lat0 with
      | some l0, some a0 => .ok ⟨l0, a0, zs.maxReduce, timeAggregate radar.time⟩
      | _, _ => .error .uninitStack

/-- The reduction the specification describes (the "masked-aware maximum"):
at each cell, the maximum of the valid per-sweep values, and a cell is
invalid iff it is invalid in every contributing sweep.  Stated from the
spec's words, for comparison with what the code computes. -/
def specMaskedMax (ls : List MArr2) : MArr2 :=
  let n := (ls.headD default).data.length
  let m := ((ls.headD default).data.headD []).length
  let valids : Nat → Nat → List ℚ := fun i j =>
    ls.filterMap fun L =>
      if (L.mask.getD i []).getD j false then none
      else some ((L.data.getD i []).getD j 0)
  ⟨(List.range n).map fun i => (List.range m).map fun j =>
      match valids i j with
      | [] => 0
      | v :: t => t.foldl max v,
   (List.range n).map fun i => (List.range m).map fun j => (valids i j).isEmpty⟩

/-- Projection of a successful run (used to name concrete output products;
the error branch is never reached where this is used). -/
def extractOk (e : Except Err CompProduct) : CompProduct :=
  match e with
  | .ok p => p
  | .error _ => default

/-- Replace the volume's `cross_correlation_ratio` field, leaving every
other field and array untouched. -/
def setCCR (r : Radar) (g : Nat → Option MArr2) : Radar :=
  { r with
    get_field := fun s n =>
      if n = "cross_correlation_ratio" then g s else r.get_field s n }

/-- Two-sweep volume, one ray and one gate per sweep: sweep 0's only cell is
invalid with raw datum `50`, sweep 1's only cell is valid with value `30`.
A stand-in for any volume where an invalid cell's raw datum exceeds every
valid value of its column. -/
def rC1 : Radar where
  sweep_number := [0, 1]
  sweep_start_ray_index := [0, 1]
  sweep_end_ray_index := [0, 1]
  get_field := fun s n =>
    if n = "reflectivity" then
      if s = 0 then some ⟨[[50]], [[true]]⟩
      else if s = 1 then some ⟨[[30]], [[false]]⟩
      else none
    else none
  gate_longitude := [[1], [2]]
  gate_latitude := [[3], [4]]
  azimuth := [0, 0]
  time := ⟨[0], ⟨0, 1⟩⟩

/-- The product the code returns on `rC1`. -/
def prodC1 : CompProduct := extractOk (composite_reflectivity rC1 false (19/20) false)

/-- Single-sweep volume whose sweep 0 has one ray (a stand-in for any ray
count below 720, such as the coarse 360). -/
def rC2 : Radar where
  sweep_number := [0]
  sweep_start_ray_index := [0]
  sweep_end_ray_index := [0]
  get_field := fun s n =>
    if n = "reflectivity" ∧ s = 0 then some ⟨[[8]], [[false]]⟩ else none
  gate_longitude := [[5]]
  gate_latitude := [[6]]
  azimuth := [0]
  time := ⟨[0], ⟨0, 1⟩⟩

/-- The product the code returns on `rC2`. -/
def prodC2 : CompProduct := extractOk (composite_reflectivity rC2 false (19/20) false)

/-- Volume with zero sweeps: every array is empty. -/
def rEmpty : Radar where
  sweep_number := []
  sweep_start_ray_index := []
  sweep_end_ray_index := []
  get_field := fun _ _ => none
  gate_longitude := []
  gate_latitude := []
  azimuth := []
  time := ⟨[], ⟨0, 1⟩⟩

/-- Single-sweep volume whose only sweep has ray count `1`, which is
neither 360 nor 720. -/
def rC6uni : Radar where
  sweep_number := [0]
  sweep_start_ray_index := [0]
  sweep_end_ray_index := [0]
  get_field := fun s n =>
    if n = "reflectivity" ∧ s = 0 then some ⟨[[7]], [[false]]⟩ else none
  gate_longitude := [[1]]
  gate_latitude := [[2]]
  azimuth := [0]
  time := ⟨[0], ⟨0, 1⟩⟩

/-- The product the code returns on `rC6uni`. -/
def prodC6 : CompProduct := extractOk (composite_reflectivity rC6uni false (19/20) false)

/-- Two-sweep volume whose sweeps have ray counts `1` and `2`: after
normalization the layers have 2 and 4 rows, so stacking fails. -/
def rC6mix : Radar where
  sweep_number := [0, 1]
  sweep_start_ray_index := [0, 1]
  sweep_end_ray_index := [0, 2]
  get_field := fun s n =>
    if n = "reflectivity" then
      if s = 0 then some ⟨[[1]], [[false]]⟩
      else if s = 1 then some ⟨[[2], [3]], [[false], [false]]⟩
      else none
    else none
  gate_longitude := [[1], [2], [3]]
  gate_latitude := [[4], [5], [6]]
  azimuth := [0, 0, 1]
  time := ⟨[0], ⟨0, 1⟩⟩

/-- C1: the claimed masked-aware reduction fails on the code.  On `rC1`
(sweep 0's cell invalid with raw datum 50, sweep 1's cell valid with value
30) the returned composite is 50 and nothing is masked, because
`np.concatenate` drops the mask of the stacked layers; the reduction the
spec describes would give a valid 30.  The invalid raw datum beat the valid
value. -/
theorem composite_reduction_mask_dropped :
    composite_reflectivity rC1 false (19/20) false = .ok prodC1 ∧
    prodC1.composite = ⟨[[50], [50]], [[false], [false]]⟩ ∧
    specMaskedMax [upsampleM ⟨[[50]], [[true]]⟩, upsampleM ⟨[[30]], [[false]]⟩] =
      ⟨[[30], [30]], [[false], [false]]⟩ ∧
    prodC1.composite ≠
      specMaskedMax [upsampleM ⟨[[50]], [[true]]⟩, upsampleM ⟨[[30]], [[false]]⟩] := by
  refine ⟨rfl, rfl, rfl, ?_⟩
  decide

/-- C2: the claimed azimuth-length invariant fails on the code.  On `rC2`
(sweep 0 with a single ray, standing for any sub-720 sweep) the retained
longitude and latitude grids keep 1 azimuth row while the composite grid
has 2: the geolocation grids are stored before upsampling and are never
normalized. -/
theorem geo_grid_not_normalized :
    composite_reflectivity rC2 false (19/20) false = .ok prodC2 ∧
    prodC2.longitude.length = 1 ∧ prodC2.latitude.length = 1 ∧
    prodC2.composite.data.length = 2 :=
  ⟨rfl, rfl, rfl, rfl⟩

/-- C5: a volume with zero sweeps fails with the empty-volume error (the
sweep loop never runs, so `z_stack` is unbound when the reduction reads
it), and no partial product is returned. -/
theorem empty_volume_fails (radar : Radar) (f : Bool) (v : ℚ) (vb : Bool)
    (h : radar.sweep_number = []) :
    composite_reflectivity radar f v vb = .error .emptyVolume := by
  simp only [composite_reflectivity, h, List.foldlM_nil]
  rfl

/-- Witness for `empty_volume_fails` at the concrete empty volume. -/
theorem empty_volume_fails_witness :
    rEmpty.sweep_number = [] ∧
    composite_reflectivity rEmpty true (19/20) false = .error .emptyVolume :=
  ⟨rfl, empty_volume_fails rEmpty true (19/20) false rfl⟩

/-- C6 counterexample: a sweep whose ray count is neither 360 nor 720 does
not make the computation fail.  `rC6uni`'s single sweep has ray count 1,
yet the code completes and returns a composite (with 2 azimuth rows, the
doubled nonstandard count). -/
theorem ray_count_unchecked_counterexample :
    rC6uni.sweep_end_ray_index.getD 0 0 + 1 - rC6uni.sweep_start_ray_index.getD 0 0 = 1 ∧
    (1 : ℕ) ≠ 360 ∧ (1 : ℕ) ≠ 720 ∧
    composite_reflectivity rC6uni false (19/20) false = .ok prodC6 ∧
    prodC6.composite.data.length = 2 :=
  ⟨rfl, by decide, by decide, rfl, rfl⟩

/-- C6 amended: there is no dedicated ray-count check.  The computation
fails, with a shape-mismatch error raised at the stacking step, exactly
when a sweep's normalized ray count disagrees with the layers already
stacked (as in `rC6mix`, ray counts 1 and 2); a volume whose sweeps all
share one ray count — even a nonstandard one — completes and returns a
composite (as on `rC6uni`). -/
theorem ray_count_mismatch_amended :
    composite_reflectivity rC6mix false (19/20) false = .error .shapeMismatch ∧
    composite_reflectivity rC6uni false (19/20) false = .ok prodC6 :=
  ⟨rfl, rfl⟩

/-- `upsample` doubles the number of rows. -/
theorem upsample_length (x : List α) : (upsample x).length = 2 * x.length := by
  induction x with
  | nil => rfl
  | cons r rs ih => simp only [upsample, List.length_cons, ih]; omega

/-- Rows `2*i` and `2*i+1` of `upsample x` both equal row `i` of `x`. -/
theorem upsample_getD_two_mul (x : List α) (i : ℕ) (h : i < x.length) (d : α) :
    (upsample x).getD (2*i) d = x.getD i d ∧
    (upsample x).getD (2*i+1) d = x.getD i d := by
  induction x generalizing i with
  | nil => simp at h
  | cons r rs ih =>
    cases i with
    | zero => simp [upsample]
    | succ j =>
      have h' : j < rs.length := by simpa using h
      have e1 : 2*(j+1) = (2*j+1)+1 := by omega
      rw [e1]
      simp only [upsample, List.getD_cons_succ]
      exact ⟨(ih j h').1, (ih j h').2⟩

/-- C4: for a sweep of `n` rows with `n < 720`, the normalization step
produces exactly `2*n` rows (data and mask alike), where output rows `2*i`
and `2*i+1` both equal input row `i`; a sweep already at 720 rows passes
through unchanged. -/
theorem upsample_exact (z : MArr2) (n : ℕ) (hn : z.data.length = n)
    (hm : z.mask.length = n) (h720 : n < 720) :
    (resolutionNormalize n z).data.length = 2 * n ∧
    (resolutionNormalize n z).mask.length = 2 * n ∧
    (∀ i, i < n → ∀ (d : List ℚ) (b : List Bool),
      (resolutionNormalize n z).data.getD (2*i) d = z.data.getD i d ∧
      (resolutionNormalize n z).data.getD (2*i+1) d = z.data.getD i d ∧
      (resolutionNormalize n z).mask.getD (2*i) b = z.mask.getD i b ∧
      (resolutionNormalize n z).mask.getD (2*i+1) b = z.mask.getD i b) ∧
    (∀ w : MArr2, resolutionNormalize 720 w = w) := by
  have hru : resolutionNormalize n z = upsampleM z := by
    unfold resolutionNormalize
    rw [if_pos h720]
  refine ⟨?_, ?_, ?_, ?_⟩
  · rw [hru]; unfold upsampleM; simp [upsample_length, hn]
  · rw [hru]; unfold upsampleM; simp [upsample_length, hm]
  · intro i hi d b
    rw [hru]
    unfold upsampleM
    have hd : i < z.data.length := by omega
    have hb : i < z.mask.length := by omega
    exact ⟨(upsample_getD_two_mul z.data i hd d).1, (upsample_getD_two_mul z.data i hd d).2,
      (upsample_getD_two_mul z.mask i hb b).1, (upsample_getD_two_mul z.mask i hb b).2⟩
  · intro w
    unfold resolutionNormalize
    rw [if_neg (by omega)]

/-- Witness for `upsample_exact` on a one-row field. -/
theorem upsample_exact_witness :
    (⟨[[3]], [[false]]⟩ : MArr2).data.length = 1 ∧ (1 : ℕ) < 720 ∧
    (resolutionNormalize 1 ⟨[[3]], [[false]]⟩).data.length = 2 * 1 :=
  ⟨rfl, by decide, (upsample_exact ⟨[[3]], [[false]]⟩ 1 rfl rfl (by decide)).1⟩

/-- `getD` at an in-range index is `getElem`. -/
theorem getD_of_lt (l : List α) (i : ℕ) (d : α) (h : i < l.length) :
    l.getD i d = l[i] := by
  simp [List.getD_eq_getElem?_getD, List.getElem?_eq_getElem h]

/-- Equal row-length profiles give equal lengths. -/
theorem length_eq_of_map_length {α β : Type} {a : List (List α)} {b : List (List β)}
    (h : a.map List.length = b.map List.length) : a.length = b.length := by
  simpa using congrArg List.length h

/-- Equal row-length profiles give equal row lengths. -/
theorem row_length_eq_of_map_length {α β : Type} {a : List (List α)} {b : List (List β)}
    (h : a.map List.length = b.map List.length) (i : ℕ) (ha : i < a.length)
    (hb : i < b.length) : a[i].length = b[i].length := by
  have h2 := congrArg (fun l => l[i]?) h
  simpa [List.getElem?_map, List.getElem?_eq_getElem, ha, hb] using h2

/-- Pointwise reading of a mask union at in-range indices. -/
theorem maskOr_getD (a b : BMat) (i j : ℕ) (hia : i < a.length)
    (hib : i < b.length) (hja : j < (a.getD i []).length)
    (hjb : j < (b.getD i []).length) :
    ((maskOr a b).getD i []).getD j false =
      ((a.getD i []).getD j false || (b.getD i []).getD j false) := by
  rw [getD_of_lt a i [] hia] at hja
  rw [getD_of_lt b i [] hib] at hjb
  have hi : i < (maskOr a b).length := by
    simp only [maskOr, List.length_zipWith]; omega
  rw [getD_of_lt _ i [] hi, getD_of_lt a i [] hia, getD_of_lt b i [] hib]
  have hrow : (maskOr a b)[i] = List.zipWith (fun x y => x || y) a[i] b[i] := by
    simp [maskOr, List.getElem_zipWith]
  rw [hrow]
  have hjz : j < (List.zipWith (fun x y => x || y) a[i] b[i]).length := by
    simp only [List.length_zipWith]; omega
  rw [getD_of_lt _ j false hjz, getD_of_lt _ j false hja, getD_of_lt _ j false hjb]
  simp [List.getElem_zipWith]

/-- Pointwise reading of the raw threshold comparison at in-range
indices. -/
theorem maskLt_getD (m : Mat) (v : ℚ) (i j : ℕ) (hi : i < m.length)
    (hj : j < (m.getD i []).length) :
    ((maskLt m v).getD i []).getD j false =
      decide ((m.getD i []).getD j 0 < v) := by
  rw [getD_of_lt m i [] hi] at hj
  have hi2 : i < (maskLt m v).length := by
    simp only [maskLt, List.length_map]; omega
  rw [getD_of_lt _ i [] hi2, getD_of_lt m i [] hi]
  have hrow : (maskLt m v)[i] = (m[i]).map fun x => decide (x < v) := by
    simp [maskLt, List.getElem_map]
  rw [hrow]
  have hj2 : j < ((m[i]).map fun x => decide (x < v)).length := by
    simp only [List.length_map]; omega
  rw [getD_of_lt _ j false hj2, getD_of_lt _ j 0 hj]
  simp [List.getElem_map]

/-- C8 counterexample: the claimed "exactly the cells with correlation
strictly below the threshold" fails on the code.  The single cell is valid
in the input field and its raw correlation datum 2 is not below the
threshold 1, yet the filtered field has the cell invalid: the correlation
cell is itself masked and `masked_where` propagates that mask (`make_mask`
fills masked condition entries with `True`). -/
theorem quality_filter_rho_mask_counterexample :
    qualityFilter true 1 ⟨[[10]], [[false]]⟩ (some ⟨[[2]], [[true]]⟩) =
      .ok ⟨[[10]], [[true]]⟩ ∧ ¬((2 : ℚ) < 1) :=
  ⟨by rfl, by decide⟩

/-- C8 amended: with filtering enabled, the filtered field keeps the input
data unchanged and its mask marks exactly the cells already invalid, those
whose raw correlation datum is strictly below the threshold, and those
whose correlation cell is itself invalid; with filtering disabled the
field passes through untouched (and the correlation argument is
irrelevant). -/
theorem quality_filter_amended (v : ℚ) (z rh z2 : MArr2)
    (hshape : z.data.map List.length = rh.data.map List.length)
    (hmrows : z.mask.length = z.data.length)
    (hmcols : z.mask.map List.length = z.data.map List.length)
    (hrmask : rh.mask.map List.length = rh.data.map List.length)
    (h : qualityFilter true v z (some rh) = .ok z2) :
    z2.data = z.data ∧
    (∀ i j, i < z.mask.length → j < (z.mask.getD i []).length →
      (z2.mask.getD i []).getD j false =
        ((z.mask.getD i []).getD j false ||
         ((rh.mask.getD i []).getD j false ||
          decide ((rh.data.getD i []).getD j 0 < v)))) ∧
    (∀ (w : MArr2) (rho : Option MArr2), qualityFilter false v w rho = .ok w) := by
  rw [qualityFilter, if_pos rfl, if_pos hshape] at h
  injection h with h
  subst h
  refine ⟨rfl, ?_, fun w rho => rfl⟩
  intro i j hi hj
  have hdatalen : z.data.length = rh.data.length := length_eq_of_map_length hshape
  have hrmlen : rh.mask.length = rh.data.length := length_eq_of_map_length hrmask
  have hi2 : i < z.data.length := hmrows ▸ hi
  have hi3 : i < rh.data.length := hdatalen ▸ hi2
  have hi4 : i < rh.mask.length := by omega
  have hjm : j < z.mask[i].length := by
    have h0 := hj
    rwa [getD_of_lt z.mask i [] hi] at h0
  have e1 : z.mask[i].length = z.data[i].length :=
    row_length_eq_of_map_length hmcols i hi hi2
  have e2 : z.data[i].length = rh.data[i].length :=
    row_length_eq_of_map_length hshape i hi2 hi3
  have e3 : rh.mask[i].length = rh.data[i].length :=
    row_length_eq_of_map_length hrmask i hi4 hi3
  have hjd : j < (rh.data.getD i []).length := by
    rw [getD_of_lt _ i [] hi3]; omega
  have hjr : j < (rh.mask.getD i []).length := by
    rw [getD_of_lt _ i [] hi4]; omega
  have hiLt : i < (maskLt rh.data v).length := by
    simp only [maskLt, List.length_map]; omega
  have hjLt : j < ((maskLt rh.data v).getD i []).length := by
    rw [getD_of_lt _ i [] hiLt]
    have hrow : (maskLt rh.data v)[i] = (rh.data[i]).map fun x => decide (x < v) := by
      simp [maskLt, List.getElem_map]
    rw [hrow]
    simp only [List.length_map]
    omega
  have hiC : i < (maskOr rh.mask (maskLt rh.data v)).length := by
    simp only [maskOr, maskLt, List.length_zipWith, List.length_map]; omega
  have hjC : j < ((maskOr rh.mask (maskLt rh.data v)).getD i []).length := by
    rw [getD_of_lt _ i [] hiC]
    have hrow : (maskOr rh.mask (maskLt rh.data v))[i] =
        List.zipWith (fun x y => x || y) rh.mask[i] ((maskLt rh.data v)[i]) := by
      simp [maskOr, List.getElem_zipWith]
    rw [hrow]
    have hrow2 : (maskLt rh.data v)[i] = (rh.data[i]).map fun x => decide (x < v) := by
      simp [maskLt, List.getElem_map]
    rw [hrow2]
    simp only [List.length_zipWith, List.length_map]
    omega
  rw [maskOr_getD z.mask (maskOr rh.mask (maskLt rh.data v)) i j hi hiC hj hjC,
    maskOr_getD rh.mask (maskLt rh.data v) i j hi4 hiLt hjr hjLt,
    maskLt_getD rh.data v i j hi3 hjd]

/-- Concrete 1x2 field for the quality-filter witness. -/
def zC8 : MArr2 := ⟨[[10, 20]], [[false, true]]⟩

/-- Concrete 1x2 correlation field for the quality-filter witness (values
below and above the integral threshold used there, both valid). -/
def rhC8 : MArr2 := ⟨[[0, 2]], [[false, false]]⟩

/-- Result of filtering `zC8` with threshold 1. -/
def z2C8 : MArr2 := ⟨[[10, 20]], [[true, true]]⟩

/-- Witness for `quality_filter_amended` at a concrete field and
threshold. -/
theorem quality_filter_amended_witness :
    qualityFilter true 1 zC8 (some rhC8) = .ok z2C8 ∧ z2C8.data = zC8.data :=
  ⟨by rfl, (quality_filter_amended 1 zC8 rhC8 z2C8 rfl rfl rfl rfl (by rfl)).1⟩

/-- The azimuth-key comparison is total. -/
theorem azKey_total (az : List ℚ) : ∀ i j, azKey az i j ∨ azKey az j i := by
  intro i j
  rcases lt_trichotomy (az.getD i 0) (az.getD j 0) with h | h | h
  · exact Or.inl (Or.inl h)
  · rcases Nat.le_total i j with hij | hij
    · exact Or.inl (Or.inr ⟨h, hij⟩)
    · exact Or.inr (Or.inr ⟨h.symm, hij⟩)
  · exact Or.inr (Or.inl h)

/-- The azimuth-key comparison is transitive. -/
theorem azKey_trans (az : List ℚ) :
    ∀ i j k, azKey az i j → azKey az j k → azKey az i k := by
  intro i j k hij hjk
  rcases hij with h1 | ⟨e1, l1⟩ <;> rcases hjk with h2 | ⟨e2, l2⟩
  · exact Or.inl (h1.trans h2)
  · exact Or.inl (e2 ▸ h1)
  · exact Or.inl (lt_of_le_of_lt (le_of_eq e1) h2)
  · exact Or.inr ⟨e1.trans e2, l1.trans l2⟩

/-- `argsortIdx az` is a permutation of the index range. -/
theorem argsort_perm (az : List ℚ) : List.Perm (argsortIdx az) (List.range az.length) :=
  List.perm_insertionSort _ _

/-- `argsortIdx az` is sorted under the azimuth-key order. -/
theorem argsort_sorted (az : List ℚ) : List.Sorted (azKey az) (argsortIdx az) := by
  haveI : IsTotal ℕ (azKey az) := ⟨azKey_total az⟩
  haveI : IsTrans ℕ (azKey az) := ⟨azKey_trans az⟩
  exact List.sorted_insertionSort _ _

/-- Every index produced by `argsortIdx` is in range. -/
theorem argsort_mem_lt (az : List ℚ) : ∀ i ∈ argsortIdx az, i < az.length := by
  intro i hi
  simpa using (List.mem_insertionSort (azKey az)).mp hi

/-- Reordering by the full index range is the identity. -/
theorem reorder_range (l : List α) (d : α) :
    reorder (List.range l.length) l d = l := by
  apply List.ext_getElem
  · simp [reorder]
  · intro i h1 h2
    simp only [reorder, List.getElem_map, List.getElem_range]
    exact getD_of_lt l i d h2

/-- Reordering by a permutation of the index range permutes the list. -/
theorem reorder_perm (l : List α) (d : α) (p : List ℕ)
    (hp : List.Perm p (List.range l.length)) : List.Perm (reorder p l d) l := by
  have h := hp.map (fun i => l.getD i d)
  have e : (List.range l.length).map (fun i => l.getD i d) = l := reorder_range l d
  rw [e] at h
  exact h

/-- Reordering two parallel lists by the same in-range indices commutes
with zipping. -/
theorem reorder_zip {α β : Type} (a : List α) (b : List β) (p : List ℕ)
    (da : α) (db : β) (hlen : b.length = a.length)
    (hp : ∀ i ∈ p, i < a.length) :
    (reorder p a da).zip (reorder p b db) = reorder p (a.zip b) (da, db) := by
  unfold reorder
  induction p with
  | nil => rfl
  | cons i q ih =>
    have hia : i < a.length := hp i (by simp)
    have hib : i < b.length := by omega
    have hiz : i < (a.zip b).length := by simp [List.length_zip]; omega
    simp only [List.map_cons, List.zip_cons_cons]
    rw [getD_of_lt _ _ _ hia, getD_of_lt _ _ _ hib, getD_of_lt _ _ _ hiz, List.getElem_zip]
    exact congrArg _ (ih fun j hj => hp j (by simp [hj]))

/-- C3: the azimuth sequence read through the permutation `argsortIdx az`
is non-decreasing; the permutation is the stable sorting permutation (ties
keep their original relative order); its indices are all in range (so the
pipeline's fancy indexing succeeds); and reading any ray-parallel array
through the same permutation preserves the (azimuth, row) pairing up to
permutation. -/
theorem azimuth_reorder_correct {α : Type} (az : List ℚ) (rows : List α)
    (d : α) (hlen : rows.length = az.length) :
    validIds (argsortIdx az) az.length = true ∧
    List.Sorted (· ≤ ·) (reorder (argsortIdx az) az 0) ∧
    List.Pairwise (fun i j => az.getD i 0 = az.getD j 0 → i ≤ j) (argsortIdx az) ∧
    List.Perm ((reorder (argsortIdx az) az 0).zip (reorder (argsortIdx az) rows d))
      (az.zip rows) := by
  refine ⟨?_, ?_, ?_, ?_⟩
  · simp only [validIds, List.all_eq_true, decide_eq_true_eq]
    exact argsort_mem_lt az
  · exact List.Pairwise.map _
      (fun i j h => by
        rcases h with h | ⟨e, _⟩
        · exact le_of_lt h
        · exact le_of_eq e)
      (argsort_sorted az)
  · exact (argsort_sorted az).imp (fun h he => by
      rcases h with h | ⟨_, hle⟩
      · exact absurd (he ▸ h) (lt_irrefl _)
      · exact hle)
  · rw [reorder_zip az rows (argsortIdx az) 0 d hlen (argsort_mem_lt az)]
    refine reorder_perm (az.zip rows) (0, d) (argsortIdx az) ?_
    have h := argsort_perm az
    have hz : (az.zip rows).length = az.length := by simp [List.length_zip, hlen]
    rw [hz]
    exact h

/-- Witness for `azimuth_reorder_correct` on a two-ray sweep. -/
theorem azimuth_reorder_correct_witness :
    ([10, 20] : List ℚ).length = ([2, 1] : List ℚ).length ∧
    List.Perm ((reorder (argsortIdx [2, 1]) ([2, 1] : List ℚ) 0).zip
        (reorder (argsortIdx [2, 1]) ([10, 20] : List ℚ) 0))
      (([2, 1] : List ℚ).zip [10, 20]) :=
  ⟨rfl, (azimuth_reorder_correct [2, 1] [10, 20] 0 rfl).2.2.2⟩

/-- A grid produced by `setLastFirstE` has its last row equal to its first
row. -/
theorem setLastFirstE_ok {α : Type} (l g : List α) (h : setLastFirstE l = .ok g) :
    g.getLast? = g.head? := by
  cases l with
  | nil => exact Except.noConfusion h
  | cons r rs =>
    have hg : g = (r :: rs).set rs.length r := (Except.ok.inj h).symm
    subst hg
    have hlen : ((r :: rs).set rs.length r).length = rs.length + 1 := by simp
    rw [List.getLast?_eq_getElem?, List.head?_eq_getElem?, hlen]
    simp only [Nat.add_sub_cancel]
    by_cases h0 : rs.length = 0
    · rw [h0]
    · rw [List.getElem?_set_eq_of_lt r (by simp), List.getElem?_set_ne (by omega)]
      exact (List.getElem?_cons_zero).symm

/-- Invariant carried by the loop state: whichever geolocation grids have
been retained so far close the azimuth circle. -/
def WrapInv (st : LoopState) : Prop :=
  (∀ g, st.lon0 = some g → g.getLast? = g.head?) ∧
  (∀ g, st.lat0 = some g → g.getLast? = g.head?)

/-- An invariant preserved by every step of an `Except`-valued fold holds
of the final state of a successful fold. -/
theorem foldlM_inv {σ α : Type} (f : σ → α → Except Err σ) (P : σ → Prop)
    (hstep : ∀ s a s2, P s → f s a = .ok s2 → P s2) :
    ∀ (l : List α) (s s2 : σ), P s → l.foldlM f s = .ok s2 → P s2 := by
  intro l
  induction l with
  | nil =>
    intro s s2 hP h
    rw [List.foldlM_nil] at h
    exact (Except.ok.inj h) ▸ hP
  | cons a t ih =>
    intro s s2 hP h
    rw [List.foldlM_cons] at h
    cases hf : f s a with
    | error e => rw [hf] at h; exact Except.noConfusion h
    | ok s1 =>
      rw [hf] at h
      exact ih s1 s2 (hstep s a s1 hP hf) h

/-- One loop iteration preserves the wrap-closure invariant. -/
theorem processSweep_wrapinv (radar : Radar) (f : Bool) (v : ℚ)
    (s : LoopState) (a : ℕ) (s2 : LoopState) (hP : WrapInv s)
    (h : processSweep radar f v s a = .ok s2) : WrapInv s2 := by
  unfold processSweep at h
  cases hprep : prepSweep radar f v a with
  | error e => rw [hprep] at h; exact Except.noConfusion h
  | ok t =>
    rw [hprep] at h
    obtain ⟨z, lon2, lat2⟩ := t
    dsimp only at h
    by_cases h0 : a = 0
    · rw [if_pos h0] at h
      cases hl : setLastFirstE lon2 with
      | error e =>
        rw [hl] at h
        cases ha2 : setLastFirstE lat2 with
        | error e2 => rw [ha2] at h; exact Except.noConfusion h
        | ok a0 => rw [ha2] at h; exact Except.noConfusion h
      | ok l0 =>
        cases ha2 : setLastFirstE lat2 with
        | error e => rw [hl, ha2] at h; exact Except.noConfusion h
        | ok a0 =>
          rw [hl, ha2] at h
          have hs2 : s2 = ⟨some l0, some a0, some (.ma z)⟩ := (Except.ok.inj h).symm
          subst hs2
          refine ⟨fun g hg => ?_, fun g hg => ?_⟩
          · cases hg; exact setLastFirstE_ok lon2 _ hl
          · cases hg; exact setLastFirstE_ok lat2 _ ha2
    · rw [if_neg h0] at h
      cases hzs : s.zstack with
      | none => rw [hzs] at h; exact Except.noConfusion h
      | some zs =>
        rw [hzs] at h
        dsimp only at h
        cases hc : zs.concat z with
        | error e => rw [hc] at h; exact Except.noConfusion h
        | ok zs2 =>
          rw [hc] at h
          have hs2 : s2 = ⟨s.lon0, s.lat0, some zs2⟩ := (Except.ok.inj h).symm
          subst hs2
          exact ⟨hP.1, hP.2⟩

/-- C7: in the returned product the last azimuth row of the longitude grid
equals its first row, and likewise for the latitude grid — the wrap-closure
overwrite applied to the retained sweep-0 grids. -/
theorem wrap_closure (radar : Radar) (f : Bool) (v : ℚ) (vb : Bool)
    (p : CompProduct) (h : composite_reflectivity radar f v vb = .ok p) :
    p.longitude.getLast? = p.longitude.head? ∧
    p.latitude.getLast? = p.latitude.head? := by
  unfold composite_reflectivity at h
  cases hf : radar.sweep_number.foldlM (processSweep radar f v) ⟨none, none, none⟩ with
  | error e => rw [hf] at h; exact Except.noConfusion h
  | ok st =>
    rw [hf] at h
    have hInv : WrapInv st :=
      foldlM_inv (processSweep radar f v) WrapInv
        (processSweep_wrapinv radar f v) radar.sweep_number ⟨none, none, none⟩ st
        ⟨fun g hg => Option.noConfusion hg, fun g hg => Option.noConfusion hg⟩ hf
    obtain ⟨lon0, lat0, zst⟩ := st
    cases zst with
    | none => exact Except.noConfusion h
    | some zs =>
      cases lon0 with
      | none => exact Except.noConfusion h
      | some l0 =>
        cases lat0 with
        | none => exact Except.noConfusion h
        | some a0 =>
          have hp : p = ⟨l0, a0, zs.maxReduce, timeAggregate radar.time⟩ :=
            (Except.ok.inj h).symm
          subst hp
          exact ⟨hInv.1 l0 rfl, hInv.2 a0 rfl⟩

/-- Single-sweep volume used as concrete success input for the general
success theorems. -/
def rOk : Radar where
  sweep_number := [0]
  sweep_start_ray_index := [0]
  sweep_end_ray_index := [1]
  get_field := fun s n =>
    if n = "reflectivity" ∧ s = 0 then some ⟨[[4], [9]], [[false], [true]]⟩ else none
  gate_longitude := [[11], [12]]
  gate_latitude := [[13], [14]]
  azimuth := [1, 0]
  time := ⟨[2, 4], ⟨0, 1⟩⟩

/-- The product the code returns on `rOk`. -/
def prodOk : CompProduct := extractOk (composite_reflectivity rOk false 1 false)

/-- Witness for `wrap_closure` on a concrete volume. -/
theorem wrap_closure_witness :
    composite_reflectivity rOk false 1 false = .ok prodOk ∧
    prodOk.longitude.getLast? = prodOk.longitude.head? :=
  ⟨rfl, (wrap_closure rOk false 1 false prodOk rfl).1⟩

/-- C9: the time entry of any returned product is the arithmetic mean of
the decoded timestamps of all rays of the volume's time array — an
expression in the volume's time data alone, independent of the
reflectivity fields and of how rays are grouped into sweeps. -/
theorem time_mean_aggregate (radar : Radar) (f : Bool) (v : ℚ) (vb : Bool)
    (p : CompProduct) (h : composite_reflectivity radar f v vb = .ok p) :
    p.time = ((radar.time.data.map (decodeTime radar.time.units)).sum)
      / (radar.time.data.length : ℚ) := by
  unfold composite_reflectivity at h
  cases hf : radar.sweep_number.foldlM (processSweep radar f v) ⟨none, none, none⟩ with
  | error e => rw [hf] at h; exact Except.noConfusion h
  | ok st =>
    rw [hf] at h
    obtain ⟨lon0, lat0, zst⟩ := st
    cases zst with
    | none => exact Except.noConfusion h
    | some zs =>
      cases lon0 with
      | none => exact Except.noConfusion h
      | some l0 =>
        cases lat0 with
        | none => exact Except.noConfusion h
        | some a0 =>
          have hp : p = ⟨l0, a0, zs.maxReduce, timeAggregate radar.time⟩ :=
            (Except.ok.inj h).symm
          subst hp
          rfl

/-- Witness for `time_mean_aggregate` on `rOk` (ray times 2 and 4). -/
theorem time_mean_aggregate_witness :
    composite_reflectivity rOk false 1 false = .ok prodOk ∧
    prodOk.time = ((rOk.time.data.map (decodeTime rOk.time.units)).sum)
      / (rOk.time.data.length : ℚ) :=
  ⟨rfl, time_mean_aggregate rOk false 1 false prodOk rfl⟩

/-- With the filter flag off, the quality filter ignores its correlation
argument entirely. -/
theorem qualityFilter_false (v : ℚ) (z : MArr2) (rho : Option MArr2) :
    qualityFilter false v z rho = .ok z := rfl

/-- With the filter flag off, one sweep's preprocessing never depends on
the volume's `cross_correlation_ratio` field. -/
theorem prepSweep_setCCR (r : Radar) (g1 g2 : Nat → Option MArr2) (v : ℚ)
    (s : Nat) :
    prepSweep (setCCR r g1) false v s = prepSweep (setCCR r g2) false v s := by
  have hneq : ¬("reflectivity" = "cross_correlation_ratio") := by decide
  simp only [prepSweep, setCCR, qualityFilter_false]
  rw [if_neg hneq, if_neg hneq]

/-- With the filter flag off, a whole loop iteration never depends on the
`cross_correlation_ratio` field. -/
theorem processSweep_setCCR (r : Radar) (g1 g2 : Nat → Option MArr2) (v : ℚ)
    (st : LoopState) (s : Nat) :
    processSweep (setCCR r g1) false v st s =
    processSweep (setCCR r g2) false v st s := by
  unfold processSweep
  rw [prepSweep_setCCR r g1 g2 v s]

/-- Pointwise-equal step functions give equal `Except`-valued folds. -/
theorem foldlM_congr {σ α : Type} (f f2 : σ → α → Except Err σ)
    (hf : ∀ s a, f s a = f2 s a) :
    ∀ (l : List α) (s : σ), l.foldlM f s = l.foldlM f2 s := by
  intro l
  induction l with
  | nil => intro s; rfl
  | cons a t ih =>
    intro s
    rw [List.foldlM_cons, List.foldlM_cons, hf]
    cases h2 : f2 s a with
    | error e => rfl
    | ok s1 => exact ih s1

/-- C10: when `rhv_filter` is off, the result does not depend on the
`cross_correlation_ratio` field at all — replacing that field by anything
(including removing it entirely) leaves the returned value unchanged, so a
volume lacking the field completes exactly as one carrying it. -/
theorem rhv_filter_off_independent (r : Radar) (g1 g2 : Nat → Option MArr2)
    (v : ℚ) (vb : Bool) :
    composite_reflectivity (setCCR r g1) false v vb =
    composite_reflectivity (setCCR r g2) false v vb := by
  unfold composite_reflectivity
  have hfold : (setCCR r g1).sweep_number.foldlM
      (processSweep (setCCR r g1) false v) ⟨none, none, none⟩ =
      (setCCR r g2).sweep_number.foldlM
      (processSweep (setCCR r g2) false v) ⟨none, none, none⟩ :=
    foldlM_congr _ _ (fun st s => processSweep_setCCR r g1 g2 v st s)
      r.sweep_number ⟨none, none, none⟩
  rw [hfold, show (setCCR r g1).time = (setCCR r g2).time from rfl]
